import Mathlib

/-!
lineprotocol: CSV to line-protocol converter.

A shallow embedding of `main.go`.  Go strings are modelled by Lean strings,
the package-level flag variables by a record that is passed explicitly, the
64-bit float type by a type parameter `F` together with the two library
conversions the program applies to it, and `uint64` by `Nat` reduced modulo
`2 ^ 64`.  File-system access is modelled by oracles for the calls that can
fail.
-/

namespace Lineprotocol

/-! ## Configuration -/

/-- The package-level flag variables of `main.go` (lines 17-26), set once by `init`. -/
structure Flags where
  inputFlag : String
  outdirFlag : String
  replayFlag : Bool
  importFileFlag : Bool
  dbFlag : String
  tableFlag : String
  rpFlag : String
  fakeTimeFlag : Bool
  deriving Repr, DecidableEq

/-- The flag defaults registered in `init` (lines 30-37). -/
def defaultFlags : Flags where
  inputFlag := "path/to/file.csv"
  outdirFlag := "converted/"
  replayFlag := false
  importFileFlag := false
  dbFlag := "mydb"
  tableFlag := "table_test"
  rpFlag := "autogen"
  fakeTimeFlag := false

/-- The two `float64` conversions of the Go library the program relies on:
`strconv.ParseFloat(s, 64)`, which returns a value together with an optional
error, and the rendering of a `float64` under the verb `%v`. -/
structure Strconv (F : Type) where
  ParseFloat : String → F × Option String
  FormatFloat : F → String

/-! ## `fmt.Sprintf` restricted to the verb `%v` -/

/-- An operand of `fmt.Sprintf`: the program passes strings, one `float64`
and one `uint64`. -/
inductive Arg (F : Type) where
  | str (s : String)
  | float (f : F)
  | uint (n : Nat)

/-- How `%v` prints an operand: a string as itself, a float through the
library rendering, an unsigned integer in decimal. -/
def Arg.render {F : Type} (sc : Strconv F) : Arg F → List Char
  | .str s => s.data
  | .float f => (sc.FormatFloat f).data
  | .uint n => (Nat.repr n).data

/-- The scanner of `fmt.Sprintf` for format strings whose only verb is `%v`:
each `%v` consumes the next operand, everything else is copied. -/
def sprintfAux {F : Type} (sc : Strconv F) : List Char → List (Arg F) → List Char
  | [], _ => []
  | '%' :: 'v' :: cs, a :: args => a.render sc ++ sprintfAux sc cs args
  | '%' :: 'v' :: cs, [] => "%!v(MISSING)".data ++ sprintfAux sc cs []
  | c :: cs, args => c :: sprintfAux sc cs args

/-- The call `fmt.Sprintf(format, args...)`. -/
def Sprintf {F : Type} (sc : Strconv F) (format : String) (args : List (Arg F)) : String :=
  String.mk (sprintfAux sc format.data args)

/-! ## The formatter -/

/-- The function `lineProtocolFormat` (lines 142-172). -/
def lineProtocolFormat {F : Type} (fl : Flags) (sc : Strconv F)
    (tableName : String) (value : F) (key : String) (ftimestamp : Nat) : String :=
  let lpStr := ""
  if fl.replayFlag then
    if fl.fakeTimeFlag then
      lpStr ++ Sprintf sc "%v\n%v\n%v key=\"%v\",value=%v %v\n"
        [.str fl.dbFlag, .str fl.rpFlag, .str tableName, .str key, .float value, .uint ftimestamp]
    else
      lpStr ++ Sprintf sc "%v\n%v\n%v key=\"%v\",value=%v\n"
        [.str fl.dbFlag, .str fl.rpFlag, .str tableName, .str key, .float value]
  else
    if fl.fakeTimeFlag then
      lpStr ++ Sprintf sc "%v key=\"%v\",value=%v %v\n"
        [.str tableName, .str key, .float value, .uint ftimestamp]
    else
      lpStr ++ Sprintf sc "%v key=\"%v\",value=%v\n"
        [.str tableName, .str key, .float value]

/-! ## The record loop -/

/-- The run-time panic `index out of range [index] with length length`,
raised while the record with number `row` was being processed. -/
structure IndexPanic where
  row : Nat
  index : Nat
  length : Nat
  deriving Repr, DecidableEq

/-- The variables of the loop of `csvToStreamReplay` (lines 106-139): the loop
index, the accumulated text, the synthetic timestamp (a `uint64`) and the
lines handed to `log.Println`. -/
structure LoopState where
  i : Nat
  lpStr : String
  ftimestamp : Nat
  log : List String
  deriving Repr, DecidableEq

/-- The text placed in `lpStr` before the loop (lines 110-119). -/
def importHeader {F : Type} (fl : Flags) (sc : Strconv F) : String :=
  if fl.importFileFlag then
    Sprintf sc "# DDL\nCREATE DATABASE %v\n\n# DML\n# CONTEXT-DATABASE: %v\n\n"
      [.str fl.dbFlag, .str fl.dbFlag]
  else ""

/-- The state in which the loop is entered. -/
def initState {F : Type} (fl : Flags) (sc : Strconv F) (log : List String) : LoopState where
  i := 0
  lpStr := importHeader fl sc
  ftimestamp := 0
  log := log

/-- One iteration of the loop (lines 123-137) on the record `row`. -/
def loopBody {F : Type} (fl : Flags) (sc : Strconv F) (st : LoopState) (row : List String) :
    Except IndexPanic LoopState :=
  match row[0]? with
  | none => .error ⟨st.i, 0, row.length⟩
  | some idStr =>
    match row[1]? with
    | none => .error ⟨st.i, 1, row.length⟩
    | some valueStr =>
      let parsed := sc.ParseFloat valueStr
      let log :=
        match parsed.2 with
        | some err => st.log ++ ["Could not convert CSV value to float:  " ++ err]
        | none => st.log
      .ok
        { i := st.i + 1
          lpStr := st.lpStr ++ lineProtocolFormat fl sc fl.tableFlag parsed.1 idStr st.ftimestamp
          ftimestamp := (st.ftimestamp + 10000000000) % 2 ^ 64
          log := log }

/-- The loop `for i := range result` (lines 122-138), started in state `st`. -/
def recordLoop {F : Type} (fl : Flags) (sc : Strconv F) :
    List (List String) → LoopState → Except IndexPanic LoopState
  | [], st => .ok st
  | row :: rest, st =>
    match loopBody fl sc st row with
    | .error p => .error p
    | .ok st1 => recordLoop fl sc rest st1

/-- Lines 106-139 of `csvToStreamReplay`: everything after the file has been
read into `result`. -/
def csvToStreamReplayBody {F : Type} (fl : Flags) (sc : Strconv F) (log : List String)
    (result : List (List String)) : Except IndexPanic LoopState :=
  recordLoop fl sc result (initState fl sc log)

/-! ## The environment -/

/-- What `os.Open` followed by `csv.Reader.ReadAll` yields. -/
inductive ReadResult where
  | openFailed (err : String)
  | readFailed (err : String)
  | records (rows : List (List String))

/-- The library and operating-system calls whose result the program does not
determine. -/
structure Env where
  /-- The call `os.Open(path)` followed by `ReadAll`. -/
  readCSV : String → ReadResult
  /-- The error of `os.MkdirAll(dir, 0755)`, if any. -/
  mkdirAll : String → Option String
  /-- The error of `os.Create(path)`, if any. -/
  create : String → Option String
  /-- The error of `WriteString(str)` on the buffered writer of the file `path`, if any. -/
  writeString : String → String → Option String
  /-- The error of `Flush()` on the buffered writer of the file `path` holding `str`, if any. -/
  flush : String → String → Option String
  /-- The bytes the gzip writer produces for a text. -/
  gzip : String → String

/-- How a run may end early: `log.Fatal` or a run-time panic. -/
inductive Abort where
  | fatal (msg : String)
  | panic (p : IndexPanic)
  deriving Repr, DecidableEq

/-- The function `csvToStreamReplay` (lines 92-140): the text and the log lines. -/
def csvToStreamReplay {F : Type} (fl : Flags) (sc : Strconv F) (env : Env) (path : String) :
    Except Abort (String × List String) :=
  match env.readCSV path with
  | .openFailed err => .error (.fatal ("Could not open CSV file:  " ++ err))
  | .readFailed err =>
    match csvToStreamReplayBody fl sc ["Could not read CSV file:  " ++ err] [] with
    | .error p => .error (.panic p)
    | .ok st => .ok (st.lpStr, st.log)
  | .records rows =>
    match csvToStreamReplayBody fl sc [] rows with
    | .error p => .error (.panic p)
    | .ok st => .ok (st.lpStr, st.log)

/-- The function `gzipString` (lines 175-194); writes to a memory buffer do not fail. -/
def gzipString (env : Env) (str : String) : String := env.gzip str

/-! ## Paths -/

/-- The test `os.IsPathSeparator` on Unix. -/
def isPathSeparator (c : Char) : Bool := c = '/'

/-- The backward scan of `filepath.Ext` over the reversed path: `acc` is the
part already passed. -/
def extRev : List Char → List Char → List Char
  | [], _ => []
  | c :: rest, acc =>
    if isPathSeparator c then []
    else if c = '.' then c :: acc
    else extRev rest (c :: acc)

/-- The library function `filepath.Ext`: the suffix beginning at the final
dot of the final element of the path, empty when there is no dot. -/
def Ext (path : String) : String := String.mk (extRev path.data.reverse [])

/-- The scan of `strings.Replace(s, old, new, -1)` for a non-empty `old`;
`skip` counts the characters of a match still to be passed. -/
def replaceAux (old new : List Char) : Nat → List Char → List Char
  | _, [] => []
  | skip + 1, _ :: cs => replaceAux old new skip cs
  | 0, c :: cs =>
    if old.isPrefixOf (c :: cs) then new ++ replaceAux old new (old.length - 1) cs
    else c :: replaceAux old new 0 cs

/-- The library function `strings.Replace(s, old, new, -1)`, for non-empty `old`. -/
def Replace (s old new : String) : String := String.mk (replaceAux old.data new.data 0 s.data)

/-- The library function `strings.TrimSuffix`. -/
def TrimSuffix (s suffix : String) : String :=
  if suffix.data.isSuffixOf s.data then
    String.mk (s.data.take (s.data.length - suffix.data.length))
  else s

/-- The library function `filepath.Base` on Unix: trailing separators are
removed, then the last element is returned. -/
def Base (path : String) : String :=
  if path = "" then "."
  else
    let stripped := path.data.reverse.dropWhile isPathSeparator
    let last := (stripped.takeWhile fun c => !isPathSeparator c).reverse
    if last = [] then "/" else String.mk last

/-! ## Writing and converting -/

/-- The effect of a successful `writeFile`: the directory made and the file
created with its content. -/
structure Written where
  dir : String
  path : String
  content : String
  deriving Repr, DecidableEq

/-- The function `writeFile` (lines 197-222).  `log.Fatalln` separates its
operands by a blank, `log.Fatal` does not when one of them is a string. -/
def writeFile (fl : Flags) (env : Env) (str outfile : String) : Except Abort Written :=
  let outfile := fl.outdirFlag ++ Base outfile
  match env.mkdirAll fl.outdirFlag with
  | some err => .error (.fatal ("Not able do create output directory " ++ err))
  | none =>
    match env.create outfile with
    | some err => .error (.fatal ("Could not create output file:\n" ++ err))
    | none =>
      match env.writeString outfile str with
      | some err => .error (.fatal ("Could not write to plain output file:\n" ++ err))
      | none =>
        match env.flush outfile str with
        | some err => .error (.fatal ("Could not flush to plain output file:\n" ++ err))
        | none => .ok { dir := fl.outdirFlag, path := outfile, content := str }

/-- How a call of `convertFile` ends. -/
inductive Outcome where
  | skipped
  | aborted (a : Abort)
  | converted (w : Written) (log : List String)
  deriving Repr, DecidableEq

/-- The function `convertFile` (lines 57-90). -/
def convertFile {F : Type} (fl : Flags) (sc : Strconv F) (env : Env) (path : String) : Outcome :=
  let ftype := Ext path
  let ftype := Replace ftype "." ""
  if ftype ≠ "csv" then .skipped
  else
    let outfile := TrimSuffix path (Ext path)
    let outfile := if fl.replayFlag then outfile ++ ".srpl" else outfile ++ ".txt"
    match csvToStreamReplay fl sc env path with
    | .error a => .aborted a
    | .ok (lpStr, log) =>
      let lpStr := if fl.replayFlag then gzipString env lpStr else lpStr
      match writeFile fl env lpStr outfile with
      | .error a => .aborted a
      | .ok w => .converted w log

/-! ## Sample data for the worked examples -/

/-- A stand-in for the float conversions that is exact on the two literals of
the worked examples: Go parses `1.5` and `2` without error and prints them
back as `1.5` and `2`; every other string is treated as a syntax error, for
which `ParseFloat` returns zero. -/
def sampleStrconv : Strconv String where
  ParseFloat := fun s =>
    if s = "1.5" ∨ s = "2" then (s, none) else ("0", some "invalid syntax")
  FormatFloat := fun v => v

/-- An environment in which every file holds the records `rows` and every
call succeeds; compression is left symbolic as the identity. -/
def sampleEnv (rows : List (List String)) : Env where
  readCSV := fun _ => .records rows
  mkdirAll := fun _ => none
  create := fun _ => none
  writeString := fun _ _ => none
  flush := fun _ _ => none
  gzip := fun s => s

/-- An environment in which no file can be opened for reading; everything
else is as in `sampleEnv`. -/
def deniedEnv : Env where
  readCSV := fun path => .openFailed ("open " ++ path ++ ": permission denied")
  mkdirAll := fun _ => none
  create := fun _ => none
  writeString := fun _ _ => none
  flush := fun _ _ => none
  gzip := fun s => s

/-- The flags of the worked examples: table `temp`, everything else default. -/
def tempFlags : Flags := { defaultFlags with tableFlag := "temp" }

/-! ## Lemmas on strings -/

theorem join_nil : String.join [] = "" := rfl

theorem join_cons (a : String) (l : List String) : String.join (a :: l) = a ++ String.join l := by
  apply String.ext
  simp [String.data_join]

theorem join_append (l1 l2 : List String) :
    String.join (l1 ++ l2) = String.join l1 ++ String.join l2 := by
  apply String.ext
  simp [String.data_join]

theorem str_append_assoc (a b c : String) : a ++ b ++ c = a ++ (b ++ c) := by
  apply String.ext
  simp

theorem str_append_empty (a : String) : a ++ "" = a := by
  apply String.ext
  simp

theorem str_empty_append (a : String) : "" ++ a = a := by
  apply String.ext
  simp

theorem str_append_left_cancel {a b c : String} (h : a ++ b = a ++ c) : b = c := by
  apply String.ext
  have h1 := congrArg String.data h
  simpa using h1

/-! ## The formatter: C1 -/

theorem lineProtocolFormat_eq {F : Type} (fl : Flags) (sc : Strconv F) (tableName : String)
    (value : F) (key : String) (ts : Nat) :
    lineProtocolFormat fl sc tableName value key ts
      = (if fl.replayFlag then fl.dbFlag ++ "\n" ++ fl.rpFlag ++ "\n" else "")
        ++ (tableName ++ " key=\"" ++ key ++ "\",value=" ++ sc.FormatFloat value
        ++ (if fl.fakeTimeFlag then " " ++ Nat.repr ts else "") ++ "\n") := by
  apply String.ext
  cases h1 : fl.replayFlag <;> cases h2 : fl.fakeTimeFlag <;>
    simp [lineProtocolFormat, h1, h2, Sprintf, sprintfAux, Arg.render]

/-- C1: `lineProtocolFormat` returns exactly the template selected by the
replay flag and the fake-time flag; in replay mode the database and retention
policy lines are part of every statement. -/
theorem lineProtocolFormat_templates {F : Type} (fl : Flags) (sc : Strconv F)
    (tableName : String) (value : F) (key : String) (ftimestamp : Nat) :
    lineProtocolFormat fl sc tableName value key ftimestamp =
      match fl.replayFlag, fl.fakeTimeFlag with
      | false, false =>
        tableName ++ " key=\"" ++ key ++ "\",value=" ++ sc.FormatFloat value ++ "\n"
      | false, true =>
        tableName ++ " key=\"" ++ key ++ "\",value=" ++ sc.FormatFloat value ++ " "
          ++ Nat.repr ftimestamp ++ "\n"
      | true, false =>
        fl.dbFlag ++ "\n" ++ fl.rpFlag ++ "\n"
          ++ tableName ++ " key=\"" ++ key ++ "\",value=" ++ sc.FormatFloat value ++ "\n"
      | true, true =>
        fl.dbFlag ++ "\n" ++ fl.rpFlag ++ "\n"
          ++ tableName ++ " key=\"" ++ key ++ "\",value=" ++ sc.FormatFloat value ++ " "
          ++ Nat.repr ftimestamp ++ "\n" := by
  apply String.ext
  cases h1 : fl.replayFlag <;> cases h2 : fl.fakeTimeFlag <;>
    simp [lineProtocolFormat, h1, h2, Sprintf, sprintfAux, Arg.render]

/-! ## The record loop: general lemmas -/

/-- One iteration on a record with at least two fields. -/
theorem loopBody_ok {F : Type} (fl : Flags) (sc : Strconv F) (st : LoopState)
    (row : List String) (h : 2 ≤ row.length) :
    loopBody fl sc st row = .ok
      { i := st.i + 1
        lpStr := st.lpStr ++ lineProtocolFormat fl sc fl.tableFlag
          (sc.ParseFloat (row.getD 1 "")).1 (row.getD 0 "") st.ftimestamp
        ftimestamp := (st.ftimestamp + 10000000000) % 2 ^ 64
        log := st.log ++ ((sc.ParseFloat (row.getD 1 "")).2.map
          fun err => "Could not convert CSV value to float:  " ++ err).toList } := by
  match row, h with
  | idStr :: valueStr :: tl, _ =>
    simp only [loopBody, List.getElem?_cons_zero, List.getElem?_cons_succ, List.getD_cons_zero,
      List.getD_cons_succ]
    cases h2 : (sc.ParseFloat valueStr).2 <;> simp

/-- One iteration on a record with fewer than two fields. -/
theorem loopBody_short {F : Type} (fl : Flags) (sc : Strconv F) (st : LoopState)
    (row : List String) (h : row.length < 2) :
    loopBody fl sc st row = .error ⟨st.i, row.length, row.length⟩ := by
  match row, h with
  | [], _ => rfl
  | [_], _ => rfl

theorem recordLoop_append {F : Type} (fl : Flags) (sc : Strconv F)
    (l1 l2 : List (List String)) (st : LoopState) :
    recordLoop fl sc (l1 ++ l2) st =
      match recordLoop fl sc l1 st with
      | .error p => .error p
      | .ok st1 => recordLoop fl sc l2 st1 := by
  induction l1 generalizing st with
  | nil => rfl
  | cons row rest ih =>
    simp only [List.cons_append, recordLoop]
    cases loopBody fl sc st row with
    | error p => rfl
    | ok st1 => exact ih st1

theorem counter_step (n : Nat) :
    (n * 10000000000 % 2 ^ 64 + 10000000000) % 2 ^ 64 = (n + 1) * 10000000000 % 2 ^ 64 := by
  rw [Nat.add_mul, Nat.one_mul]
  omega

/-- The loop on records that all have two fields, entered with the counter at
its value after `n` steps. -/
theorem recordLoop_ok {F : Type} (fl : Flags) (sc : Strconv F) (rows : List (List String))
    (hrows : ∀ r ∈ rows, 2 ≤ r.length) (st : LoopState) (n : Nat)
    (ht : st.ftimestamp = n * 10000000000 % 2 ^ 64) :
    recordLoop fl sc rows st = .ok
      { i := st.i + rows.length
        lpStr := st.lpStr ++ String.join ((rows.enumFrom n).map fun p =>
          lineProtocolFormat fl sc fl.tableFlag (sc.ParseFloat (p.2.getD 1 "")).1
            (p.2.getD 0 "") (p.1 * 10000000000 % 2 ^ 64))
        ftimestamp := (n + rows.length) * 10000000000 % 2 ^ 64
        log := st.log ++ rows.flatMap fun r => ((sc.ParseFloat (r.getD 1 "")).2.map
          fun err => "Could not convert CSV value to float:  " ++ err).toList } := by
  induction rows generalizing st n with
  | nil =>
    simp only [recordLoop, List.enumFrom_nil, List.map_nil, join_nil, str_append_empty,
      List.length_nil, Nat.add_zero, List.flatMap_nil, List.append_nil]
    rw [← ht]
  | cons row rest ih =>
    have h2 : 2 ≤ row.length := hrows row (List.mem_cons_self _ _)
    have hrest : ∀ r ∈ rest, 2 ≤ r.length := fun r hr => hrows r (List.mem_cons_of_mem _ hr)
    simp only [recordLoop, loopBody_ok fl sc st row h2]
    rw [ih hrest _ (n + 1) (by simp only [ht, counter_step])]
    simp only [List.enumFrom_cons, List.map_cons, join_cons, List.length_cons, ht,
      str_append_assoc, List.flatMap_cons, List.append_assoc]
    rw [Nat.add_assoc st.i, Nat.add_assoc n, Nat.add_comm 1 rest.length]

theorem importHeader_eq {F : Type} (fl : Flags) (sc : Strconv F) :
    importHeader fl sc =
      if fl.importFileFlag then
        "# DDL\nCREATE DATABASE " ++ fl.dbFlag ++ "\n\n# DML\n# CONTEXT-DATABASE: " ++ fl.dbFlag
          ++ "\n\n"
      else "" := by
  apply String.ext
  cases h : fl.importFileFlag <;> simp [importHeader, h, Sprintf, sprintfAux, Arg.render]

/-- The whole loop, from the initial state, on records with two fields each. -/
theorem body_ok {F : Type} (fl : Flags) (sc : Strconv F) (log : List String)
    (rows : List (List String)) (hrows : ∀ r ∈ rows, 2 ≤ r.length) :
    csvToStreamReplayBody fl sc log rows = .ok
      { i := rows.length
        lpStr := importHeader fl sc ++ String.join (rows.enum.map fun p =>
          lineProtocolFormat fl sc fl.tableFlag (sc.ParseFloat (p.2.getD 1 "")).1
            (p.2.getD 0 "") (p.1 * 10000000000 % 2 ^ 64))
        ftimestamp := rows.length * 10000000000 % 2 ^ 64
        log := log ++ rows.flatMap fun r => ((sc.ParseFloat (r.getD 1 "")).2.map
          fun err => "Could not convert CSV value to float:  " ++ err).toList } := by
  have h := recordLoop_ok fl sc rows hrows (initState fl sc log) 0 (by simp [initState])
  simp only [initState, Nat.zero_add] at h
  exact h

/-- The step from the first `k` records to the first `k + 1`. -/
theorem body_take_succ {F : Type} (fl : Flags) (sc : Strconv F) (log : List String)
    (rows : List (List String)) (hrows : ∀ r ∈ rows, 2 ≤ r.length) (k : Nat)
    (hk : k < rows.length) :
    ∃ st : LoopState,
      csvToStreamReplayBody fl sc log (rows.take k) = .ok st
      ∧ st.i = k ∧ st.ftimestamp = k * 10000000000 % 2 ^ 64
      ∧ csvToStreamReplayBody fl sc log rows = recordLoop fl sc (rows.drop k) st
      ∧ csvToStreamReplayBody fl sc log (rows.take (k + 1)) = .ok
        { i := k + 1
          lpStr := st.lpStr ++ lineProtocolFormat fl sc fl.tableFlag
            (sc.ParseFloat ((rows.get ⟨k, hk⟩).getD 1 "")).1 ((rows.get ⟨k, hk⟩).getD 0 "")
            (k * 10000000000 % 2 ^ 64)
          ftimestamp := (k + 1) * 10000000000 % 2 ^ 64
          log := st.log ++ ((sc.ParseFloat ((rows.get ⟨k, hk⟩).getD 1 "")).2.map
            fun err => "Could not convert CSV value to float:  " ++ err).toList } := by
  have htake : ∀ r ∈ rows.take k, 2 ≤ r.length := fun r hr => hrows r (List.mem_of_mem_take hr)
  have hlen : (rows.take k).length = k := by
    rw [List.length_take]
    omega
  have h0 := body_ok fl sc log (rows.take k) htake
  rw [hlen] at h0
  refine ⟨_, h0, rfl, rfl, ?_, ?_⟩
  · have h1 := recordLoop_append fl sc (rows.take k) (rows.drop k) (initState fl sc log)
    rw [List.take_append_drop] at h1
    unfold csvToStreamReplayBody at h0 ⊢
    rw [h1, h0]
  · have hsplit : rows.take (k + 1) = rows.take k ++ [rows.get ⟨k, hk⟩] := by
      rw [List.take_succ, List.getElem?_eq_getElem hk]
      rfl
    have h1 := recordLoop_append fl sc (rows.take k) [rows.get ⟨k, hk⟩] (initState fl sc log)
    unfold csvToStreamReplayBody at h0 ⊢
    rw [hsplit, h1, h0]
    simp only [recordLoop]
    rw [loopBody_ok fl sc _ _ (hrows _ (List.get_mem rows k hk))]
    simp only [counter_step]

/-! ## The record loop: C2 -/

/-- C2: on `N` records that all have two fields the loop of `csvToStreamReplay`
ends normally, and its text is the import preamble (empty without import-file
mode) followed by exactly `N` statements in the order of the records, the
`k`-th being `lineProtocolFormat` of the first field of record `k` as key and
its parsed second field as value. -/
theorem csvToStreamReplayBody_statements {F : Type} (fl : Flags) (sc : Strconv F)
    (log : List String) (rows : List (List String)) (hrows : ∀ r ∈ rows, 2 ≤ r.length) :
    ∃ st : LoopState,
      csvToStreamReplayBody fl sc log rows = .ok st
      ∧ st.lpStr =
          (if fl.importFileFlag then
            "# DDL\nCREATE DATABASE " ++ fl.dbFlag ++ "\n\n# DML\n# CONTEXT-DATABASE: "
              ++ fl.dbFlag ++ "\n\n"
          else "")
          ++ String.join (rows.enum.map fun p =>
              lineProtocolFormat fl sc fl.tableFlag (sc.ParseFloat (p.2.getD 1 "")).1
                (p.2.getD 0 "") (p.1 * 10000000000 % 2 ^ 64))
      ∧ (rows.enum.map fun p =>
              lineProtocolFormat fl sc fl.tableFlag (sc.ParseFloat (p.2.getD 1 "")).1
                (p.2.getD 0 "") (p.1 * 10000000000 % 2 ^ 64)).length = rows.length := by
  refine ⟨_, body_ok fl sc log rows hrows, ?_, ?_⟩
  · simp only [importHeader_eq]
  · simp only [List.length_map, List.enum_length]

/-- The worked example of C2: the records `a,1.5` and `b,2` with table `temp`
and all modes off. -/
theorem csvToStreamReplayBody_statements_witness :
    (∀ r ∈ [["a", "1.5"], ["b", "2"]], 2 ≤ r.length)
    ∧ ∃ st : LoopState,
        csvToStreamReplayBody tempFlags sampleStrconv [] [["a", "1.5"], ["b", "2"]] = .ok st
        ∧ st.lpStr = "temp key=\"a\",value=1.5\ntemp key=\"b\",value=2\n" := by
  obtain ⟨st, h1, h2, _⟩ :=
    csvToStreamReplayBody_statements tempFlags sampleStrconv [] [["a", "1.5"], ["b", "2"]]
      (by decide)
  refine ⟨by decide, st, h1, ?_⟩
  rw [h2]
  decide

/-! ## The synthetic timestamp: C3 -/

/-- C3, as the code has it: the counter is a `uint64`, so the timestamp with
which record `k` is formatted is `k * 10000000000` reduced modulo `2 ^ 64`
(equal to `k * 10000000000` for `k < 1844674408`); it advances by that step
after every record in every mode.  With fake-timestamp mode on, the statement
of record `k` ends in that number in decimal; with the mode off the statement
carries no timestamp, whatever the counter holds. -/
theorem timestamp_of_record {F : Type} (fl : Flags) (sc : Strconv F) (log : List String)
    (rows : List (List String)) (hrows : ∀ r ∈ rows, 2 ≤ r.length) (k : Nat)
    (hk : k < rows.length) :
    ∃ st st1 : LoopState,
      csvToStreamReplayBody fl sc log (rows.take k) = .ok st
      ∧ csvToStreamReplayBody fl sc log rows = recordLoop fl sc (rows.drop k) st
      ∧ csvToStreamReplayBody fl sc log (rows.take (k + 1)) = .ok st1
      ∧ st.ftimestamp = k * 10000000000 % 2 ^ 64
      ∧ (k < 1844674408 → st.ftimestamp = k * 10000000000)
      ∧ st1.ftimestamp = (st.ftimestamp + 10000000000) % 2 ^ 64
      ∧ st1.lpStr = st.lpStr ++ lineProtocolFormat fl sc fl.tableFlag
          (sc.ParseFloat ((rows.get ⟨k, hk⟩).getD 1 "")).1 ((rows.get ⟨k, hk⟩).getD 0 "")
          st.ftimestamp
      ∧ (fl.fakeTimeFlag = true →
          lineProtocolFormat fl sc fl.tableFlag
              (sc.ParseFloat ((rows.get ⟨k, hk⟩).getD 1 "")).1
              ((rows.get ⟨k, hk⟩).getD 0 "") st.ftimestamp
            = (if fl.replayFlag then fl.dbFlag ++ "\n" ++ fl.rpFlag ++ "\n" else "")
              ++ (fl.tableFlag ++ " key=\"" ++ (rows.get ⟨k, hk⟩).getD 0 "" ++ "\",value="
              ++ sc.FormatFloat (sc.ParseFloat ((rows.get ⟨k, hk⟩).getD 1 "")).1
              ++ " " ++ Nat.repr (k * 10000000000 % 2 ^ 64) ++ "\n"))
      ∧ (fl.fakeTimeFlag = false → ∀ t : Nat,
          lineProtocolFormat fl sc fl.tableFlag
              (sc.ParseFloat ((rows.get ⟨k, hk⟩).getD 1 "")).1
              ((rows.get ⟨k, hk⟩).getD 0 "") t
            = (if fl.replayFlag then fl.dbFlag ++ "\n" ++ fl.rpFlag ++ "\n" else "")
              ++ (fl.tableFlag ++ " key=\"" ++ (rows.get ⟨k, hk⟩).getD 0 "" ++ "\",value="
              ++ sc.FormatFloat (sc.ParseFloat ((rows.get ⟨k, hk⟩).getD 1 "")).1
              ++ "\n")) := by
  obtain ⟨st, h0, _, ht, hfull, h1⟩ := body_take_succ fl sc log rows hrows k hk
  refine ⟨st, _, h0, hfull, h1, ht, ?_, ?_, ?_, ?_, ?_⟩
  · intro hsmall
    rw [ht]
    apply Nat.mod_eq_of_lt
    omega
  · show (k + 1) * 10000000000 % 2 ^ 64 = (st.ftimestamp + 10000000000) % 2 ^ 64
    rw [ht, counter_step]
  · show st.lpStr ++ _ = st.lpStr ++ _
    rw [ht]
  · intro hf
    rw [lineProtocolFormat_eq, hf, ht]
    apply String.ext
    simp
  · intro hf t
    rw [lineProtocolFormat_eq, hf]
    apply String.ext
    simp

/-- The worked example of C3: the records `a,1.5` and `b,2` with table `temp`
and fake-timestamp mode on; the second record carries `10000000000`. -/
theorem timestamp_of_record_witness :
    (∀ r ∈ [["a", "1.5"], ["b", "2"]], 2 ≤ r.length) ∧ 1 < [["a", "1.5"], ["b", "2"]].length
    ∧ ∃ st st1 : LoopState,
        csvToStreamReplayBody { tempFlags with fakeTimeFlag := true } sampleStrconv []
            [["a", "1.5"]] = .ok st
        ∧ csvToStreamReplayBody { tempFlags with fakeTimeFlag := true } sampleStrconv []
            [["a", "1.5"], ["b", "2"]] = .ok st1
        ∧ st.ftimestamp = 10000000000
        ∧ st.lpStr = "temp key=\"a\",value=1.5 0\n"
        ∧ st1.lpStr = "temp key=\"a\",value=1.5 0\ntemp key=\"b\",value=2 10000000000\n" := by
  obtain ⟨st, st1, h0, _, h1, ht, _, _, hs, _, _⟩ :=
    timestamp_of_record { tempFlags with fakeTimeFlag := true } sampleStrconv []
      [["a", "1.5"], ["b", "2"]] (by decide) 1 (by decide)
  have h0b : csvToStreamReplayBody { tempFlags with fakeTimeFlag := true } sampleStrconv []
      [["a", "1.5"]] = .ok ⟨1, "temp key=\"a\",value=1.5 0\n", 10000000000, []⟩ := by rfl
  have hst : st = ⟨1, "temp key=\"a\",value=1.5 0\n", 10000000000, []⟩ := by
    have h0c : csvToStreamReplayBody { tempFlags with fakeTimeFlag := true } sampleStrconv []
      [["a", "1.5"]] = .ok st := h0
    rw [h0b] at h0c
    exact (Except.ok.inj h0c).symm
  refine ⟨by decide, by decide, st, st1, h0, h1, ?_, ?_, ?_⟩
  · rw [hst]
  · rw [hst]
  · rw [hs, hst]
    decide

/-- The step from `n` to `n + 1` copies of one record. -/
theorem body_replicate_succ {F : Type} (fl : Flags) (sc : Strconv F) (row : List String)
    (hrow : 2 ≤ row.length) (n : Nat) :
    ∃ st st1 : LoopState,
      csvToStreamReplayBody fl sc [] (List.replicate n row) = .ok st
      ∧ csvToStreamReplayBody fl sc [] (List.replicate (n + 1) row) = .ok st1
      ∧ st1.lpStr = st.lpStr ++ lineProtocolFormat fl sc fl.tableFlag
          (sc.ParseFloat (row.getD 1 "")).1 (row.getD 0 "") (n * 10000000000 % 2 ^ 64) := by
  have hall : ∀ r ∈ List.replicate (n + 1) row, 2 ≤ r.length := by
    intro r hr
    rw [(List.mem_replicate.mp hr).2]
    exact hrow
  have hlen : n < (List.replicate (n + 1) row).length := by
    rw [List.length_replicate]
    exact Nat.lt_succ_self n
  obtain ⟨st, h0, _, _, _, h1⟩ :=
    body_take_succ fl sc [] (List.replicate (n + 1) row) hall n hlen
  have e0 : (List.replicate (n + 1) row).take n = List.replicate n row := by
    rw [List.take_replicate, Nat.min_eq_left (Nat.le_succ n)]
  have e1 : (List.replicate (n + 1) row).take (n + 1) = List.replicate (n + 1) row := by
    rw [List.take_replicate, Nat.min_self]
  have e2 : (List.replicate (n + 1) row).get ⟨n, hlen⟩ = row := by
    simp only [List.get_eq_getElem, List.getElem_replicate]
  rw [e0] at h0
  rw [e1, e2] at h1
  exact ⟨st, _, h0, h1, rfl⟩

/-- C3 fails as stated: with fake-timestamp mode on, the statement of the
record with index 1844674408 carries the timestamp 6290448384, not
1844674408 * 10000000000 = 18446744080000000000, because the counter wraps
at `2 ^ 64`. -/
theorem timestamp_wraps :
    ∃ st st1 : LoopState,
      csvToStreamReplayBody { tempFlags with fakeTimeFlag := true } sampleStrconv []
          (List.replicate 1844674408 ["a", "1.5"]) = .ok st
      ∧ csvToStreamReplayBody { tempFlags with fakeTimeFlag := true } sampleStrconv []
          (List.replicate (1844674408 + 1) ["a", "1.5"]) = .ok st1
      ∧ st1.lpStr = st.lpStr ++ "temp key=\"a\",value=1.5 6290448384\n"
      ∧ st1.lpStr ≠ st.lpStr ++ "temp key=\"a\",value=1.5 18446744080000000000\n"
      ∧ 1844674408 * 10000000000 = 18446744080000000000 := by
  obtain ⟨st, st1, h0, h1, hs⟩ :=
    body_replicate_succ { tempFlags with fakeTimeFlag := true } sampleStrconv ["a", "1.5"]
      (by decide) 1844674408
  have hnum : 1844674408 * 10000000000 % 2 ^ 64 = 6290448384 := by norm_num
  rw [hnum] at hs
  have hstmt : lineProtocolFormat { tempFlags with fakeTimeFlag := true } sampleStrconv
      ({ tempFlags with fakeTimeFlag := true } : Flags).tableFlag
      (sampleStrconv.ParseFloat (["a", "1.5"].getD 1 "")).1 (["a", "1.5"].getD 0 "") 6290448384
      = "temp key=\"a\",value=1.5 6290448384\n" := by decide
  rw [hstmt] at hs
  refine ⟨st, st1, h0, h1, hs, ?_, by norm_num⟩
  rw [hs]
  intro h
  have h2 := str_append_left_cancel h
  revert h2
  decide

/-! ## Replay header and import preamble: C4, C5 -/

/-- C4 fails as stated: for the two records `a,1.5` and `b,2` the replay text
is not the plain text with one `mydb`, `autogen` header in front of the
record block; the header stands before each of the two statements. -/
theorem replay_header_not_once :
    ∃ stR stP : LoopState,
      csvToStreamReplayBody { tempFlags with replayFlag := true } sampleStrconv []
          [["a", "1.5"], ["b", "2"]] = .ok stR
      ∧ csvToStreamReplayBody { tempFlags with replayFlag := false } sampleStrconv []
          [["a", "1.5"], ["b", "2"]] = .ok stP
      ∧ stP.lpStr = "temp key=\"a\",value=1.5\ntemp key=\"b\",value=2\n"
      ∧ stR.lpStr
          = "mydb\nautogen\ntemp key=\"a\",value=1.5\nmydb\nautogen\ntemp key=\"b\",value=2\n"
      ∧ stR.lpStr ≠ "mydb\nautogen\n" ++ stP.lpStr :=
  ⟨⟨2, "mydb\nautogen\ntemp key=\"a\",value=1.5\nmydb\nautogen\ntemp key=\"b\",value=2\n",
      20000000000, []⟩,
    ⟨2, "temp key=\"a\",value=1.5\ntemp key=\"b\",value=2\n", 20000000000, []⟩,
    by rfl, by rfl, by rfl, by rfl, by decide⟩

/-- C4, as the code has it: for the same records and flags, the replay text
(before compression) and the plain text both start with the import preamble
and then hold one statement per record; each replay statement is the plain
statement of the same record with the database line and the retention-policy
line put in front, so the header occurs once per record. -/
theorem replay_header_per_record {F : Type} (fl : Flags) (sc : Strconv F) (log : List String)
    (rows : List (List String)) (hrows : ∀ r ∈ rows, 2 ≤ r.length) :
    ∃ stR stP : LoopState,
      csvToStreamReplayBody { fl with replayFlag := true } sc log rows = .ok stR
      ∧ csvToStreamReplayBody { fl with replayFlag := false } sc log rows = .ok stP
      ∧ stP.lpStr = importHeader fl sc ++ String.join (rows.enum.map fun p =>
          lineProtocolFormat { fl with replayFlag := false } sc fl.tableFlag
            (sc.ParseFloat (p.2.getD 1 "")).1 (p.2.getD 0 "") (p.1 * 10000000000 % 2 ^ 64))
      ∧ stR.lpStr = importHeader fl sc ++ String.join (rows.enum.map fun p =>
          fl.dbFlag ++ "\n" ++ fl.rpFlag ++ "\n" ++
          lineProtocolFormat { fl with replayFlag := false } sc fl.tableFlag
            (sc.ParseFloat (p.2.getD 1 "")).1 (p.2.getD 0 "") (p.1 * 10000000000 % 2 ^ 64)) := by
  refine ⟨_, _, body_ok { fl with replayFlag := true } sc log rows hrows,
    body_ok { fl with replayFlag := false } sc log rows hrows, rfl, ?_⟩
  show importHeader fl sc ++ _ = importHeader fl sc ++ _
  congr 2
  apply List.map_congr_left
  intro p _
  rw [lineProtocolFormat_eq, lineProtocolFormat_eq]
  apply String.ext
  simp

/-- The two records `a,1.5` and `b,2` in replay mode: the header occurs twice. -/
theorem replay_header_per_record_witness :
    (∀ r ∈ [["a", "1.5"], ["b", "2"]], 2 ≤ r.length)
    ∧ ∃ stR : LoopState,
        csvToStreamReplayBody { tempFlags with replayFlag := true } sampleStrconv []
          [["a", "1.5"], ["b", "2"]] = .ok stR
        ∧ stR.lpStr
          = "mydb\nautogen\ntemp key=\"a\",value=1.5\nmydb\nautogen\ntemp key=\"b\",value=2\n" := by
  obtain ⟨stR, _, h1, _, _, h4⟩ :=
    replay_header_per_record tempFlags sampleStrconv [] [["a", "1.5"], ["b", "2"]] (by decide)
  refine ⟨by decide, stR, h1, ?_⟩
  rw [h4]
  decide

theorem recordLoop_importFile {F : Type} (fl : Flags) (sc : Strconv F) (b : Bool)
    (rows : List (List String)) (st : LoopState) :
    recordLoop { fl with importFileFlag := b } sc rows st = recordLoop fl sc rows st := by
  induction rows generalizing st with
  | nil => rfl
  | cons row rest ih =>
    simp only [recordLoop]
    have hb : loopBody { fl with importFileFlag := b } sc st row = loopBody fl sc st row := rfl
    rw [hb]
    cases loopBody fl sc st row with
    | error p => rfl
    | ok st1 => exact ih st1

theorem loopBody_lpStr_prepend {F : Type} (fl : Flags) (sc : Strconv F) (pre : String)
    (st : LoopState) (row : List String) :
    loopBody fl sc { st with lpStr := pre ++ st.lpStr } row
      = (loopBody fl sc st row).map fun s => { s with lpStr := pre ++ s.lpStr } := by
  unfold loopBody
  cases row[0]? with
  | none => rfl
  | some idStr =>
    cases row[1]? with
    | none => rfl
    | some valueStr =>
      simp only [Except.map, str_append_assoc]

theorem recordLoop_lpStr_prepend {F : Type} (fl : Flags) (sc : Strconv F) (pre : String)
    (rows : List (List String)) (st : LoopState) :
    recordLoop fl sc rows { st with lpStr := pre ++ st.lpStr }
      = (recordLoop fl sc rows st).map fun s => { s with lpStr := pre ++ s.lpStr } := by
  induction rows generalizing st with
  | nil => rfl
  | cons row rest ih =>
    simp only [recordLoop, loopBody_lpStr_prepend]
    cases loopBody fl sc st row with
    | error p => rfl
    | ok st1 => exact ih st1

/-- C5: with import-file mode on, the loop of `csvToStreamReplay` produces
what it produces with the mode off, with the preamble naming the database put
once in front of the text and nothing else changed (same counter, same log,
same panic if any); for the database `mydb` the preamble is the literal text
of the specification. -/
theorem importFile_prepends_header {F : Type} (fl : Flags) (sc : Strconv F)
    (log : List String) (rows : List (List String)) :
    csvToStreamReplayBody { fl with importFileFlag := true } sc log rows
      = (csvToStreamReplayBody { fl with importFileFlag := false } sc log rows).map
          (fun st => { st with lpStr :=
            "# DDL\nCREATE DATABASE " ++ fl.dbFlag ++ "\n\n# DML\n# CONTEXT-DATABASE: "
              ++ fl.dbFlag ++ "\n\n" ++ st.lpStr })
    ∧ csvToStreamReplayBody { fl with importFileFlag := true, dbFlag := "mydb" } sc log rows
      = (csvToStreamReplayBody { fl with importFileFlag := false, dbFlag := "mydb" } sc log
          rows).map
          (fun st => { st with lpStr :=
            "# DDL\nCREATE DATABASE mydb\n\n# DML\n# CONTEXT-DATABASE: mydb\n\n" ++ st.lpStr }) := by
  have key : ∀ fl0 : Flags,
      csvToStreamReplayBody { fl0 with importFileFlag := true } sc log rows
      = (csvToStreamReplayBody { fl0 with importFileFlag := false } sc log rows).map
          (fun st => { st with lpStr :=
            "# DDL\nCREATE DATABASE " ++ fl0.dbFlag ++ "\n\n# DML\n# CONTEXT-DATABASE: "
              ++ fl0.dbFlag ++ "\n\n" ++ st.lpStr }) := by
    intro fl0
    unfold csvToStreamReplayBody
    rw [recordLoop_importFile fl0 sc true, recordLoop_importFile fl0 sc false]
    have h1 : initState { fl0 with importFileFlag := true } sc log
        = { initState { fl0 with importFileFlag := false } sc log with
            lpStr := ("# DDL\nCREATE DATABASE " ++ fl0.dbFlag ++ "\n\n# DML\n# CONTEXT-DATABASE: "
              ++ fl0.dbFlag ++ "\n\n")
              ++ (initState { fl0 with importFileFlag := false } sc log).lpStr } := by
      simp [initState, importHeader_eq, str_append_empty]
    rw [h1, recordLoop_lpStr_prepend]
  refine ⟨key fl, ?_⟩
  have h := key { fl with dbFlag := "mydb" }
  have e : "# DDL\nCREATE DATABASE " ++ "mydb" ++ "\n\n# DML\n# CONTEXT-DATABASE: " ++ "mydb"
      ++ "\n\n" = "# DDL\nCREATE DATABASE mydb\n\n# DML\n# CONTEXT-DATABASE: mydb\n\n" := by
    decide
  rw [← e]
  exact h

/-! ## Parse failures and short records: C9, C10 -/

/-- C9, as the code has it: a record whose value fails to parse is not
skipped.  The run over all records still ends normally, having processed
every record and logged the failure; the failing record `j` contributes
exactly one statement at its own position, with its key and the value
`ParseFloat` returned; the counter, a `uint64`, advances past it by
10000000000 modulo `2 ^ 64`, which is an advance by exactly 10000000000 for
`j < 1844674407`; and every other record `k` contributes the same statement,
with the same timestamp, as in the run where record `j` is replaced by any
other record `row2` (in particular one whose value parses). -/
theorem parse_failure_keeps_record {F : Type} (fl : Flags) (sc : Strconv F)
    (log : List String) (rows : List (List String)) (hrows : ∀ r ∈ rows, 2 ≤ r.length)
    (j : Nat) (hj : j < rows.length) (err : String)
    (hfail : (sc.ParseFloat ((rows.get ⟨j, hj⟩).getD 1 "")).2 = some err)
    (row2 : List String) (hrow2 : 2 ≤ row2.length) :
    (∃ st : LoopState,
      csvToStreamReplayBody fl sc log rows = .ok st
      ∧ st.i = rows.length
      ∧ "Could not convert CSV value to float:  " ++ err ∈ st.log)
    ∧ (∃ st st1 : LoopState,
      csvToStreamReplayBody fl sc log (rows.take j) = .ok st
      ∧ csvToStreamReplayBody fl sc log (rows.take (j + 1)) = .ok st1
      ∧ st1.lpStr = st.lpStr ++ lineProtocolFormat fl sc fl.tableFlag
          (sc.ParseFloat ((rows.get ⟨j, hj⟩).getD 1 "")).1 ((rows.get ⟨j, hj⟩).getD 0 "")
          (j * 10000000000 % 2 ^ 64)
      ∧ st.ftimestamp = j * 10000000000 % 2 ^ 64
      ∧ st1.ftimestamp = (st.ftimestamp + 10000000000) % 2 ^ 64
      ∧ (j < 1844674407 → st1.ftimestamp = st.ftimestamp + 10000000000)
      ∧ st1.i = st.i + 1)
    ∧ (∀ (k : Nat) (hk : k < rows.length), k ≠ j →
      ∃ a a1 b b1 : LoopState,
        csvToStreamReplayBody fl sc log (rows.take k) = .ok a
        ∧ csvToStreamReplayBody fl sc log (rows.take (k + 1)) = .ok a1
        ∧ csvToStreamReplayBody fl sc log ((rows.set j row2).take k) = .ok b
        ∧ csvToStreamReplayBody fl sc log ((rows.set j row2).take (k + 1)) = .ok b1
        ∧ a1.lpStr = a.lpStr ++ lineProtocolFormat fl sc fl.tableFlag
            (sc.ParseFloat ((rows.get ⟨k, hk⟩).getD 1 "")).1 ((rows.get ⟨k, hk⟩).getD 0 "")
            (k * 10000000000 % 2 ^ 64)
        ∧ b1.lpStr = b.lpStr ++ lineProtocolFormat fl sc fl.tableFlag
            (sc.ParseFloat ((rows.get ⟨k, hk⟩).getD 1 "")).1 ((rows.get ⟨k, hk⟩).getD 0 "")
            (k * 10000000000 % 2 ^ 64)) := by
  refine ⟨⟨_, body_ok fl sc log rows hrows, rfl, ?_⟩, ?_, ?_⟩
  · apply List.mem_append_right
    rw [List.mem_flatMap]
    refine ⟨rows.get ⟨j, hj⟩, List.get_mem rows j hj, ?_⟩
    rw [hfail]
    simp
  · obtain ⟨st, h0, hi, ht, _, h1⟩ := body_take_succ fl sc log rows hrows j hj
    refine ⟨st, _, h0, h1, rfl, ht, ?_, ?_, ?_⟩
    · show (j + 1) * 10000000000 % 2 ^ 64 = (st.ftimestamp + 10000000000) % 2 ^ 64
      rw [ht, counter_step]
    · intro hsmall
      show (j + 1) * 10000000000 % 2 ^ 64 = st.ftimestamp + 10000000000
      rw [ht, Nat.mod_eq_of_lt (by omega), Nat.mod_eq_of_lt (by omega)]
      omega
    · show j + 1 = st.i + 1
      rw [hi]
  · intro k hk hkj
    have hrows2 : ∀ r ∈ rows.set j row2, 2 ≤ r.length := by
      intro r hr
      rcases List.mem_or_eq_of_mem_set hr with h | h
      · exact hrows r h
      · rw [h]
        exact hrow2
    have hk2 : k < (rows.set j row2).length := by
      rw [List.length_set]
      exact hk
    have hget : (rows.set j row2).get ⟨k, hk2⟩ = rows.get ⟨k, hk⟩ := by
      simp only [List.get_eq_getElem]
      exact List.getElem_set_ne (Ne.symm hkj) _
    obtain ⟨a, ha, _, _, _, ha1⟩ := body_take_succ fl sc log rows hrows k hk
    obtain ⟨b, hb, _, _, _, hb1⟩ := body_take_succ fl sc log (rows.set j row2) hrows2 k hk2
    rw [hget] at hb1
    exact ⟨a, _, b, _, ha, ha1, hb, hb1, rfl, rfl⟩

/-- An instance of C9: `x` does not parse in the records `a,1.5`, `b,x`,
`c,2`; the run ends normally with three statements, the second one for key
`b`. -/
theorem parse_failure_keeps_record_witness :
    (∀ r ∈ [["a", "1.5"], ["b", "x"], ["c", "2"]], 2 ≤ r.length)
    ∧ (sampleStrconv.ParseFloat "x").2 = some "invalid syntax"
    ∧ ∃ st : LoopState,
        csvToStreamReplayBody { tempFlags with fakeTimeFlag := true } sampleStrconv []
          [["a", "1.5"], ["b", "x"], ["c", "2"]] = .ok st
        ∧ st.i = 3
        ∧ st.lpStr = "temp key=\"a\",value=1.5 0\ntemp key=\"b\",value=0 10000000000\n"
            ++ "temp key=\"c\",value=2 20000000000\n" := by
  obtain ⟨⟨st, h1, h2, _⟩, _, _⟩ :=
    parse_failure_keeps_record { tempFlags with fakeTimeFlag := true } sampleStrconv []
      [["a", "1.5"], ["b", "x"], ["c", "2"]] (by decide) 1 (by decide) "invalid syntax"
      (by decide) ["b", "2"] (by decide)
  have hrun : csvToStreamReplayBody { tempFlags with fakeTimeFlag := true } sampleStrconv []
      [["a", "1.5"], ["b", "x"], ["c", "2"]]
      = .ok ⟨3, "temp key=\"a\",value=1.5 0\ntemp key=\"b\",value=0 10000000000\n"
            ++ "temp key=\"c\",value=2 20000000000\n", 30000000000,
          ["Could not convert CSV value to float:  invalid syntax"]⟩ := by rfl
  have hst := h1
  rw [hrun] at hst
  have hst2 := (Except.ok.inj hst).symm
  refine ⟨by decide, by decide, st, h1, h2, ?_⟩
  rw [hst2]

/-- The step from `n` copies of one record to the same followed by the
record `last`. -/
theorem body_replicate_snoc {F : Type} (fl : Flags) (sc : Strconv F) (row last : List String)
    (hrow : 2 ≤ row.length) (hlast : 2 ≤ last.length) (n : Nat) :
    ∃ st st1 : LoopState,
      csvToStreamReplayBody fl sc [] (List.replicate n row) = .ok st
      ∧ csvToStreamReplayBody fl sc [] (List.replicate n row ++ [last]) = .ok st1
      ∧ st.ftimestamp = n * 10000000000 % 2 ^ 64
      ∧ st1.ftimestamp = (n + 1) * 10000000000 % 2 ^ 64
      ∧ st1.lpStr = st.lpStr ++ lineProtocolFormat fl sc fl.tableFlag
          (sc.ParseFloat (last.getD 1 "")).1 (last.getD 0 "") (n * 10000000000 % 2 ^ 64) := by
  have hall : ∀ r ∈ List.replicate n row, 2 ≤ r.length := by
    intro r hr
    rw [(List.mem_replicate.mp hr).2]
    exact hrow
  have h0 := body_ok fl sc [] (List.replicate n row) hall
  rw [List.length_replicate] at h0
  have h1 : csvToStreamReplayBody fl sc [] (List.replicate n row ++ [last])
      = recordLoop fl sc [last]
        { i := n
          lpStr := importHeader fl sc ++ String.join ((List.replicate n row).enum.map fun p =>
            lineProtocolFormat fl sc fl.tableFlag (sc.ParseFloat (p.2.getD 1 "")).1
              (p.2.getD 0 "") (p.1 * 10000000000 % 2 ^ 64))
          ftimestamp := n * 10000000000 % 2 ^ 64
          log := [] ++ (List.replicate n row).flatMap fun r =>
            ((sc.ParseFloat (r.getD 1 "")).2.map
              fun err => "Could not convert CSV value to float:  " ++ err).toList } := by
    unfold csvToStreamReplayBody at h0 ⊢
    rw [recordLoop_append, h0]
  simp only [recordLoop] at h1
  rw [loopBody_ok fl sc _ last hlast] at h1
  simp only [counter_step] at h1
  exact ⟨_, _, h0, h1, rfl, rfl, rfl⟩

/-- C9 fails as stated: when the record with index 1844674407 does not parse,
it is written with the timestamp 18446744070000000000 and the counter then
holds 6290448384, so it has not advanced by 10000000000: the `uint64` has
wrapped at `2 ^ 64`. -/
theorem parse_failure_counter_wraps :
    (sampleStrconv.ParseFloat "x").2 = some "invalid syntax"
    ∧ ∃ st st1 : LoopState,
      csvToStreamReplayBody { tempFlags with fakeTimeFlag := true } sampleStrconv []
          (List.replicate 1844674407 ["a", "1.5"]) = .ok st
      ∧ csvToStreamReplayBody { tempFlags with fakeTimeFlag := true } sampleStrconv []
          (List.replicate 1844674407 ["a", "1.5"] ++ [["b", "x"]]) = .ok st1
      ∧ st1.lpStr = st.lpStr ++ "temp key=\"b\",value=0 18446744070000000000\n"
      ∧ st.ftimestamp = 18446744070000000000
      ∧ st1.ftimestamp = 6290448384
      ∧ st1.ftimestamp ≠ st.ftimestamp + 10000000000 := by
  obtain ⟨st, st1, h0, h1, ht, ht1, hs⟩ :=
    body_replicate_snoc { tempFlags with fakeTimeFlag := true } sampleStrconv ["a", "1.5"]
      ["b", "x"] (by decide) (by decide) 1844674407
  have hnum : 1844674407 * 10000000000 % 2 ^ 64 = 18446744070000000000 := by norm_num
  have hnum1 : (1844674407 + 1) * 10000000000 % 2 ^ 64 = 6290448384 := by norm_num
  rw [hnum] at ht hs
  rw [hnum1] at ht1
  have hstmt : lineProtocolFormat { tempFlags with fakeTimeFlag := true } sampleStrconv
      ({ tempFlags with fakeTimeFlag := true } : Flags).tableFlag
      (sampleStrconv.ParseFloat (["b", "x"].getD 1 "")).1 (["b", "x"].getD 0 "")
      18446744070000000000
      = "temp key=\"b\",value=0 18446744070000000000\n" := by decide
  rw [hstmt] at hs
  refine ⟨by decide, st, st1, h0, h1, hs, ht, ht1, ?_⟩
  rw [ht, ht1]
  decide

theorem exists_first_short (rows : List (List String))
    (h : ¬ ∀ r ∈ rows, 2 ≤ r.length) :
    ∃ (pre : List (List String)) (r : List String) (post : List (List String)),
      rows = pre ++ r :: post ∧ (∀ x ∈ pre, 2 ≤ x.length) ∧ r.length < 2 := by
  induction rows with
  | nil => exact absurd (fun r hr => absurd hr (List.not_mem_nil r)) h
  | cons row rest ih =>
    by_cases hrow : 2 ≤ row.length
    · have hrest : ¬ ∀ r ∈ rest, 2 ≤ r.length := by
        intro hall
        apply h
        intro r hr
        rcases List.mem_cons.mp hr with e | e
        · rw [e]
          exact hrow
        · exact hall r e
      obtain ⟨pre, r, post, e, hpre, hr⟩ := ih hrest
      refine ⟨row :: pre, r, post, ?_, ?_, hr⟩
      · rw [e]
        rfl
      · intro x hx
        rcases List.mem_cons.mp hx with e2 | e2
        · rw [e2]
          exact hrow
        · exact hpre x e2
    · exact ⟨[], row, rest, rfl, fun x hx => absurd hx (List.not_mem_nil x), Nat.lt_of_not_le hrow⟩

theorem body_short {F : Type} (fl : Flags) (sc : Strconv F) (log : List String)
    (pre : List (List String)) (r : List String) (post : List (List String))
    (hpre : ∀ x ∈ pre, 2 ≤ x.length) (hr : r.length < 2) :
    csvToStreamReplayBody fl sc log (pre ++ r :: post)
      = .error ⟨pre.length, r.length, r.length⟩ := by
  have h0 := body_ok fl sc log pre hpre
  unfold csvToStreamReplayBody at h0 ⊢
  rw [recordLoop_append, h0]
  simp only [recordLoop, loopBody_short fl sc _ r hr]

/-- C10: the loop of `csvToStreamReplay` ends without an index panic exactly
when every record has at least two fields; otherwise it stops at the first
record with fewer than two fields, with the panic `index out of range` for
the index equal to that record's length, and returns no text. -/
theorem index_panic_iff_short_record {F : Type} (fl : Flags) (sc : Strconv F)
    (log : List String) (rows : List (List String)) :
    ((∃ st : LoopState, csvToStreamReplayBody fl sc log rows = .ok st)
      ↔ ∀ r ∈ rows, 2 ≤ r.length)
    ∧ (∀ (pre : List (List String)) (r : List String) (post : List (List String)),
        rows = pre ++ r :: post → (∀ x ∈ pre, 2 ≤ x.length) → r.length < 2 →
        csvToStreamReplayBody fl sc log rows = .error ⟨pre.length, r.length, r.length⟩) := by
  constructor
  · constructor
    · intro ⟨st, hst⟩
      by_contra hno
      obtain ⟨pre, r, post, e, hpre, hr⟩ := exists_first_short rows hno
      rw [e, body_short fl sc log pre r post hpre hr] at hst
      exact Except.noConfusion hst
    · intro hall
      exact ⟨_, body_ok fl sc log rows hall⟩
  · intro pre r post e hpre hr
    rw [e]
    exact body_short fl sc log pre r post hpre hr

/-- An instance of C10: a file with one column panics at its first record. -/
theorem index_panic_iff_short_record_witness :
    csvToStreamReplayBody tempFlags sampleStrconv [] [["a"], ["b"]] = .error ⟨0, 1, 1⟩
    ∧ csvToStreamReplayBody tempFlags sampleStrconv [] [["a", "1.5"], ["b"], []]
        = .error ⟨1, 1, 1⟩ :=
  ⟨(index_panic_iff_short_record tempFlags sampleStrconv [] [["a"], ["b"]]).2
      [] ["a"] [["b"]] rfl (by decide) (by decide),
    (index_panic_iff_short_record tempFlags sampleStrconv [] [["a", "1.5"], ["b"], []]).2
      [["a", "1.5"]] ["b"] [[]] rfl (by decide) (by decide)⟩

/-! ## Paths -/

/-- A non-empty result of the extension scan starts at a dot that is
preceded, in the reversed path, only by characters other than the dot and the
separator. -/
theorem extRev_ne_nil (r acc : List Char) (h : extRev r acc ≠ []) :
    ∃ t1 t2 : List Char, r = t1 ++ '.' :: t2
      ∧ extRev r acc = '.' :: (t1.reverse ++ acc)
      ∧ ∀ c ∈ t1, c ≠ '/' ∧ c ≠ '.' := by
  induction r generalizing acc with
  | nil => exact absurd rfl h
  | cons c rest ih =>
    unfold extRev at h ⊢
    by_cases hsep : isPathSeparator c = true
    · rw [if_pos hsep] at h
      exact absurd rfl h
    · rw [if_neg hsep] at h ⊢
      by_cases hdot : c = '.'
      · rw [if_pos hdot]
        refine ⟨[], rest, ?_, ?_, ?_⟩
        · rw [hdot]
          rfl
        · rw [hdot]
          rfl
        · intro x hx
          exact absurd hx (List.not_mem_nil x)
      · rw [if_neg hdot] at h ⊢
        obtain ⟨t1, t2, e, hres, hall⟩ := ih (c :: acc) h
        refine ⟨c :: t1, t2, ?_, ?_, ?_⟩
        · rw [e]
          rfl
        · rw [hres]
          simp
        · intro x hx
          rcases List.mem_cons.mp hx with e2 | e2
          · rw [e2]
            refine ⟨?_, hdot⟩
            intro hc
            apply hsep
            rw [hc]
            rfl
          · exact hall x e2

theorem replaceAux_dot (s : List Char) :
    replaceAux ['.'] [] 0 s = s.filter fun c => c != '.' := by
  induction s with
  | nil => rfl
  | cons c cs ih =>
    unfold replaceAux
    by_cases hdot : c = '.'
    · subst hdot
      simp [List.isPrefixOf, ih]
    · have hb : (c == '.') = false := by simpa using hdot
      have hdot2 : ¬ '.' = c := fun h => hdot h.symm
      simp [List.isPrefixOf, ih, hb, hdot, hdot2]

/-- The file-type test of `convertFile` (lines 61-66) succeeds exactly for the
extension `.csv`. -/
theorem ftype_csv_iff (path : String) : Replace (Ext path) "." "" = "csv" ↔ Ext path = ".csv" := by
  have hdata : (Replace (Ext path) "." "").data
      = (extRev path.data.reverse []).filter fun c => c != '.' := by
    show replaceAux ['.'] [] 0 (extRev path.data.reverse []) = _
    exact replaceAux_dot _
  have hext : (Ext path).data = extRev path.data.reverse [] := rfl
  rw [String.ext_iff, String.ext_iff, hdata, hext]
  by_cases hnil : extRev path.data.reverse [] = []
  · rw [hnil]
    constructor
    · intro h
      exact absurd h (by decide)
    · intro h
      exact absurd h (by decide)
  · obtain ⟨t1, t2, _, hres, hall⟩ := extRev_ne_nil _ _ hnil
    rw [hres, List.append_nil]
    have hfilter : (t1.reverse.filter fun c => c != '.') = t1.reverse := by
      rw [List.filter_eq_self]
      intro c hc
      have := (hall c (List.mem_reverse.mp hc)).2
      simpa using this
    have hcons : (('.' :: t1.reverse).filter fun c => c != '.') = t1.reverse := by
      rw [List.filter_cons_of_neg (by decide), hfilter]
    rw [hcons]
    constructor
    · intro h
      rw [h]
    · intro h
      have h2 : '.' :: t1.reverse = '.' :: ['c', 's', 'v'] := h
      exact (List.cons.inj h2).2

theorem dropWhile_notSep_cases (l : List Char) :
    (l.dropWhile fun c => !isPathSeparator c) = []
      ∨ ∃ d, (l.dropWhile fun c => !isPathSeparator c) = '/' :: d := by
  induction l with
  | nil => exact Or.inl rfl
  | cons c cs ih =>
    by_cases hc : c = '/'
    · right
      refine ⟨cs, ?_⟩
      rw [hc]
      rfl
    · have hstep : ((c :: cs).dropWhile fun c => !isPathSeparator c)
          = cs.dropWhile fun c => !isPathSeparator c := by
        simp [List.dropWhile_cons, isPathSeparator, hc]
      rw [hstep]
      exact ih

/-- A path with a non-empty extension splits into a directory part, that is
empty or ends in a separator, and a last element that ends in the extension
and holds no separator. -/
theorem ext_decomp (l : List Char) (h : extRev l.reverse [] ≠ []) :
    ∃ d e : List Char, l = d.reverse ++ (e ++ extRev l.reverse [])
      ∧ (∀ c ∈ e ++ extRev l.reverse [], c ≠ '/')
      ∧ (d = [] ∨ ∃ d1, d = '/' :: d1) := by
  obtain ⟨t1, t2, hr, hres, hall⟩ := extRev_ne_nil _ _ h
  rw [hres, List.append_nil]
  have hsplit := List.takeWhile_append_dropWhile (fun c => !isPathSeparator c) t2
  refine ⟨t2.dropWhile fun c => !isPathSeparator c,
    (t2.takeWhile fun c => !isPathSeparator c).reverse, ?_, ?_, dropWhile_notSep_cases t2⟩
  · have hl : l = (l.reverse).reverse := (List.reverse_reverse l).symm
    have ht2 : t2.reverse = (t2.dropWhile fun c => !isPathSeparator c).reverse
        ++ (t2.takeWhile fun c => !isPathSeparator c).reverse := by
      rw [← List.reverse_append, hsplit]
    rw [hl, hr, List.reverse_append, List.reverse_cons, ht2]
    simp
  · intro c hc
    rcases List.mem_append.mp hc with h1 | h1
    · have h2 := List.mem_takeWhile_imp (List.mem_reverse.mp h1)
      intro hcs
      rw [hcs] at h2
      exact absurd h2 (by decide)
    · rcases List.mem_cons.mp h1 with h2 | h2
      · rw [h2]
        decide
      · exact (hall c (List.mem_reverse.mp h2)).1

/-- The base name of a path whose last element `m` is non-empty and free of
separators. -/
theorem Base_of_decomp (d m : List Char) (hm : ∀ c ∈ m, c ≠ '/') (hne : m ≠ [])
    (hd : d = [] ∨ ∃ d1, d = '/' :: d1) :
    Base (String.mk (d.reverse ++ m)) = String.mk m := by
  have hnotSep : ∀ c ∈ m.reverse, (!isPathSeparator c) = true := by
    intro c hc
    have := hm c (List.mem_reverse.mp hc)
    simp [isPathSeparator, this]
  have hpath : String.mk (d.reverse ++ m) ≠ "" := by
    intro h
    have h2 := congrArg String.data h
    have h3 : d.reverse ++ m = [] := h2
    exact hne (List.append_eq_nil.mp h3).2
  have hrev : (d.reverse ++ m).reverse = m.reverse ++ d := by simp
  have hdrop : (m.reverse ++ d).dropWhile isPathSeparator = m.reverse ++ d := by
    cases hmr : m.reverse with
    | nil => exact absurd (List.reverse_eq_nil_iff.mp hmr) hne
    | cons c cs =>
      have hc : (!isPathSeparator c) = true := hnotSep c (by rw [hmr]; exact List.mem_cons_self c cs)
      have hc2 : ¬ isPathSeparator c = true := by simpa using hc
      rw [List.cons_append, List.dropWhile_cons_of_neg hc2]
  have htake : ((m.reverse ++ d).takeWhile fun c => !isPathSeparator c) = m.reverse := by
    rw [List.takeWhile_append_of_pos hnotSep]
    rcases hd with h | ⟨d1, h⟩
    · rw [h]
      simp
    · rw [h, List.takeWhile_cons_of_neg (by decide)]
      simp
  unfold Base
  rw [if_neg hpath]
  show (if ((((d.reverse ++ m).reverse.dropWhile isPathSeparator).takeWhile
      fun c => !isPathSeparator c).reverse = []) then "/" else _) = _
  rw [hrev, hdrop, htake, List.reverse_reverse, if_neg hne]

theorem TrimSuffix_append (a s : List Char) :
    TrimSuffix (String.mk (a ++ s)) (String.mk s) = String.mk a := by
  unfold TrimSuffix
  have hsuf : List.isSuffixOf s (a ++ s) = true := by
    rw [List.isSuffixOf_iff_suffix]
    exact List.suffix_append a s
  show (if List.isSuffixOf s (a ++ s) = true then
    String.mk ((a ++ s).take ((a ++ s).length - s.length)) else _) = _
  rw [if_pos hsuf]
  have hlen : (a ++ s).length - s.length = a.length := by
    rw [List.length_append]
    omega
  rw [hlen, List.take_left]

/-- The name under which `convertFile` and `writeFile` store the result of a
path with extension `.csv`: the base name of the path with `.csv` replaced by
the new extension `x`. -/
theorem Base_outfile (path : String) (hext : Ext path = ".csv") (x : List Char)
    (hx : ∀ c ∈ x, c ≠ '/') (hxne : x ≠ []) :
    Base (TrimSuffix path (Ext path) ++ String.mk x)
        = TrimSuffix (Base path) ".csv" ++ String.mk x
      ∧ ∀ c ∈ (TrimSuffix (Base path) ".csv" ++ String.mk x).data, c ≠ '/' := by
  have hdata : extRev path.data.reverse [] = ['.', 'c', 's', 'v'] := congrArg String.data hext
  have hne : extRev path.data.reverse [] ≠ [] := by
    rw [hdata]
    decide
  obtain ⟨d, e, hl, hall, hd⟩ := ext_decomp path.data hne
  rw [hdata] at hl hall
  have hpath : path = String.mk (d.reverse ++ e ++ ['.', 'c', 's', 'v']) := by
    apply String.ext
    rw [hl]
    simp
  have he : ∀ c ∈ e, c ≠ '/' := fun c hc => hall c (List.mem_append_left _ hc)
  have hbase : Base path = String.mk (e ++ ['.', 'c', 's', 'v']) := by
    have h1 := Base_of_decomp d (e ++ ['.', 'c', 's', 'v']) hall (by simp) hd
    rw [hpath]
    rw [← h1]
    simp
  have htrimBase : TrimSuffix (Base path) ".csv" = String.mk e := by
    rw [hbase]
    exact TrimSuffix_append e ['.', 'c', 's', 'v']
  have htrim : TrimSuffix path (Ext path) = String.mk (d.reverse ++ e) := by
    rw [hext]
    conv_lhs => rw [hpath]
    exact TrimSuffix_append (d.reverse ++ e) ['.', 'c', 's', 'v']
  rw [htrim, htrimBase]
  have hex : ∀ c ∈ e ++ x, c ≠ '/' := by
    intro c hc
    rcases List.mem_append.mp hc with h | h
    · exact he c h
    · exact hx c h
  constructor
  · have hnil : e ++ x ≠ [] := fun h => hxne (List.append_eq_nil.mp h).2
    have h1 := Base_of_decomp d (e ++ x) hex hnil hd
    have e1 : String.mk (d.reverse ++ e) ++ String.mk x = String.mk (d.reverse ++ (e ++ x)) := by
      apply String.ext
      simp
    have e2 : String.mk e ++ String.mk x = String.mk (e ++ x) := by
      apply String.ext
      simp
    rw [e1, e2, h1]
  · intro c hc
    have : c ∈ e ++ x := by simpa using hc
    exact hex c this

/-! ## Conversion of a file: C6, C7, C8 -/

theorem convertFile_of_not_csv {F : Type} (fl : Flags) (sc : Strconv F) (env : Env)
    (path : String) (h : Ext path ≠ ".csv") : convertFile fl sc env path = .skipped := by
  have h2 : Replace (Ext path) "." "" ≠ "csv" := fun hc => h ((ftype_csv_iff path).mp hc)
  unfold convertFile
  simp only [ne_eq, h2, not_false_eq_true, if_true]

theorem convertFile_of_csv {F : Type} (fl : Flags) (sc : Strconv F) (env : Env)
    (path : String) (h : Ext path = ".csv") :
    convertFile fl sc env path =
      match csvToStreamReplay fl sc env path with
      | .error a => .aborted a
      | .ok (lpStr, log) =>
        match writeFile fl env (if fl.replayFlag then gzipString env lpStr else lpStr)
            (if fl.replayFlag then TrimSuffix path (Ext path) ++ ".srpl"
              else TrimSuffix path (Ext path) ++ ".txt") with
        | .error a => .aborted a
        | .ok w => .converted w log := by
  have h2 : Replace (Ext path) "." "" = "csv" := (ftype_csv_iff path).mpr h
  unfold convertFile
  simp only [ne_eq, h2, not_true_eq_false, if_false]

/-- The name under which the result for a path with extension `.csv` is
stored, and the fact that it holds no separator. -/
theorem outfile_name (fl : Flags) (path : String) (hext : Ext path = ".csv") :
    Base (if fl.replayFlag then TrimSuffix path (Ext path) ++ ".srpl"
        else TrimSuffix path (Ext path) ++ ".txt")
        = TrimSuffix (Base path) ".csv" ++ (if fl.replayFlag then ".srpl" else ".txt")
      ∧ ∀ c ∈ (TrimSuffix (Base path) ".csv"
            ++ if fl.replayFlag then ".srpl" else ".txt").data, c ≠ '/' := by
  cases fl.replayFlag with
  | true => exact Base_outfile path hext ['.', 's', 'r', 'p', 'l'] (by decide) (by decide)
  | false => exact Base_outfile path hext ['.', 't', 'x', 't'] (by decide) (by decide)

/-- What `convertFile` does with a path of extension `.csv` once the loop has
produced the state `st` and the four output calls succeed. -/
theorem convertFile_of_loop_ok {F : Type} (fl : Flags) (sc : Strconv F) (env : Env)
    (path : String) (hext : Ext path = ".csv") (log0 : List String)
    (rows : List (List String)) (st : LoopState)
    (hread : env.readCSV path = .records rows ∧ log0 = []
      ∨ rows = [] ∧ ∃ err, env.readCSV path = .readFailed err
          ∧ log0 = ["Could not read CSV file:  " ++ err])
    (hloop : csvToStreamReplayBody fl sc log0 rows = .ok st)
    (hmk : env.mkdirAll fl.outdirFlag = none) (hcr : ∀ p : String, env.create p = none)
    (hwr : ∀ p s : String, env.writeString p s = none)
    (hfl : ∀ p s : String, env.flush p s = none) :
    convertFile fl sc env path = .converted
      ⟨fl.outdirFlag,
        fl.outdirFlag ++ (TrimSuffix (Base path) ".csv"
          ++ if fl.replayFlag then ".srpl" else ".txt"),
        if fl.replayFlag then env.gzip st.lpStr else st.lpStr⟩ st.log := by
  rw [convertFile_of_csv fl sc env path hext]
  have hcsv : csvToStreamReplay fl sc env path = .ok (st.lpStr, st.log) := by
    rcases hread with ⟨h1, h2⟩ | ⟨h1, err, h2, h3⟩
    · rw [h2] at hloop
      simp only [csvToStreamReplay, h1, hloop]
    · rw [h1, h3] at hloop
      simp only [csvToStreamReplay, h2, hloop]
  rw [hcsv]
  simp only [writeFile, hmk, hcr, hwr, hfl, (outfile_name fl path hext).1, gzipString]

/-- C6, as the code has it: `convertFile` returns at once, whatever the
environment holds (so without reading or writing), exactly when the extension
of the path, the suffix starting at the last dot of its final element, is not
`.csv`.  For the extension `.csv` the file is read: when it cannot be opened
the run ends with a fatal error and nothing is written; when it is read, every
record has two fields and the four output calls succeed, the text of the loop
(compressed in replay mode) is written under the output-directory flag
followed by the renamed base name; when it is opened but cannot be parsed, the
same happens with no records. -/
theorem convertFile_csv_only {F : Type} (fl : Flags) (sc : Strconv F) (env : Env)
    (path : String) :
    (convertFile fl sc env path = .skipped ↔ Ext path ≠ ".csv")
    ∧ (Ext path = ".csv" → ∀ err : String, env.readCSV path = .openFailed err →
        convertFile fl sc env path = .aborted (.fatal ("Could not open CSV file:  " ++ err)))
    ∧ (Ext path = ".csv" → ∀ rows : List (List String), env.readCSV path = .records rows →
        (∀ r ∈ rows, 2 ≤ r.length) → env.mkdirAll fl.outdirFlag = none →
        (∀ p : String, env.create p = none) → (∀ p s : String, env.writeString p s = none) →
        (∀ p s : String, env.flush p s = none) →
        convertFile fl sc env path = .converted
          ⟨fl.outdirFlag,
            fl.outdirFlag ++ (TrimSuffix (Base path) ".csv"
              ++ if fl.replayFlag then ".srpl" else ".txt"),
            if fl.replayFlag then
              env.gzip (importHeader fl sc ++ String.join (rows.enum.map fun p =>
                lineProtocolFormat fl sc fl.tableFlag (sc.ParseFloat (p.2.getD 1 "")).1
                  (p.2.getD 0 "") (p.1 * 10000000000 % 2 ^ 64)))
            else
              importHeader fl sc ++ String.join (rows.enum.map fun p =>
                lineProtocolFormat fl sc fl.tableFlag (sc.ParseFloat (p.2.getD 1 "")).1
                  (p.2.getD 0 "") (p.1 * 10000000000 % 2 ^ 64))⟩
          (rows.flatMap fun r => ((sc.ParseFloat (r.getD 1 "")).2.map
            fun err => "Could not convert CSV value to float:  " ++ err).toList))
    ∧ (Ext path = ".csv" → ∀ err : String, env.readCSV path = .readFailed err →
        env.mkdirAll fl.outdirFlag = none →
        (∀ p : String, env.create p = none) → (∀ p s : String, env.writeString p s = none) →
        (∀ p s : String, env.flush p s = none) →
        convertFile fl sc env path = .converted
          ⟨fl.outdirFlag,
            fl.outdirFlag ++ (TrimSuffix (Base path) ".csv"
              ++ if fl.replayFlag then ".srpl" else ".txt"),
            if fl.replayFlag then env.gzip (importHeader fl sc) else importHeader fl sc⟩
          ["Could not read CSV file:  " ++ err]) := by
  refine ⟨⟨?_, convertFile_of_not_csv fl sc env path⟩, ?_, ?_, ?_⟩
  · intro hskip hext
    rw [convertFile_of_csv fl sc env path hext] at hskip
    cases h1 : csvToStreamReplay fl sc env path with
    | error a =>
      rw [h1] at hskip
      exact Outcome.noConfusion hskip
    | ok res =>
      rw [h1] at hskip
      obtain ⟨lpStr, log⟩ := res
      simp only at hskip
      split at hskip
      · exact Outcome.noConfusion hskip
      · exact Outcome.noConfusion hskip
  · intro hext err hread
    rw [convertFile_of_csv fl sc env path hext]
    simp only [csvToStreamReplay, hread]
  · intro hext rows hread hrows hmk hcr hwr hfl
    have h := convertFile_of_loop_ok fl sc env path hext [] rows _ (Or.inl ⟨hread, rfl⟩)
      (body_ok fl sc [] rows hrows) hmk hcr hwr hfl
    rw [h]
    simp only [List.nil_append]
  · intro hext err hread hmk hcr hwr hfl
    have h := convertFile_of_loop_ok fl sc env path hext ["Could not read CSV file:  " ++ err]
      [] _ (Or.inr ⟨rfl, err, hread, rfl⟩)
      (body_ok fl sc _ [] (fun r hr => absurd hr (List.not_mem_nil r))) hmk hcr hwr hfl
    rw [h]
    simp only [List.enum_nil, List.map_nil, join_nil, str_append_empty, List.flatMap_nil,
      List.append_nil]

/-- Instances of C6: `notes.txt`, `data.CSV`, `data.csv.bak`, a name without
a dot and a file in a directory named `dir.csv` are skipped; `dir/data.csv`
holding `a,1.5` and `b,2` is written to `converted/data.txt`. -/
theorem convertFile_csv_only_witness :
    convertFile tempFlags sampleStrconv (sampleEnv [["a", "1.5"]]) "notes.txt" = .skipped
    ∧ convertFile tempFlags sampleStrconv (sampleEnv [["a", "1.5"]]) "data.CSV" = .skipped
    ∧ convertFile tempFlags sampleStrconv (sampleEnv [["a", "1.5"]]) "data.csv.bak" = .skipped
    ∧ convertFile tempFlags sampleStrconv (sampleEnv [["a", "1.5"]]) "README" = .skipped
    ∧ convertFile tempFlags sampleStrconv (sampleEnv [["a", "1.5"]]) "dir.csv/README" = .skipped
    ∧ convertFile tempFlags sampleStrconv (sampleEnv [["a", "1.5"], ["b", "2"]]) "dir/data.csv"
        = .converted
          ⟨"converted/", "converted/data.txt", "temp key=\"a\",value=1.5\ntemp key=\"b\",value=2\n"⟩
          [] := by
  refine ⟨(convertFile_csv_only tempFlags sampleStrconv _ "notes.txt").1.mpr (by decide),
    (convertFile_csv_only tempFlags sampleStrconv _ "data.CSV").1.mpr (by decide),
    (convertFile_csv_only tempFlags sampleStrconv _ "data.csv.bak").1.mpr (by decide),
    (convertFile_csv_only tempFlags sampleStrconv _ "README").1.mpr (by decide),
    (convertFile_csv_only tempFlags sampleStrconv _ "dir.csv/README").1.mpr (by decide), ?_⟩
  have h := (convertFile_csv_only tempFlags sampleStrconv
    (sampleEnv [["a", "1.5"], ["b", "2"]]) "dir/data.csv").2.2.1 (by decide)
    [["a", "1.5"], ["b", "2"]] rfl (by decide) rfl (fun _ => rfl) (fun _ _ => rfl)
    (fun _ _ => rfl)
  rw [h]
  decide

/-- C6 fails as stated: `data.csv` has the extension `.csv`, yet when the file
cannot be opened `convertFile` ends the run with a fatal error and writes no
output file. -/
theorem convertFile_csv_not_converted :
    Ext "data.csv" = ".csv"
    ∧ convertFile tempFlags sampleStrconv deniedEnv "data.csv"
        = .aborted (.fatal "Could not open CSV file:  open data.csv: permission denied")
    ∧ ¬ ∃ (w : Written) (log : List String),
        convertFile tempFlags sampleStrconv deniedEnv "data.csv" = .converted w log := by
  have hrun : convertFile tempFlags sampleStrconv deniedEnv "data.csv"
      = .aborted (.fatal "Could not open CSV file:  open data.csv: permission denied") := by
    decide
  refine ⟨by decide, hrun, ?_⟩
  rintro ⟨w, log, h⟩
  rw [hrun] at h
  exact Outcome.noConfusion h

/-- C7, the code at the failing input: with `-output converted` the file is
created as `converteddata.txt`, beside the directory `converted` that
`MkdirAll` has made, not as `converted/data.txt`; the path is the flag and
the base name concatenated without a separator. -/
theorem writeFile_no_separator :
    writeFile { defaultFlags with outdirFlag := "converted" } (sampleEnv []) "x" "in/data.txt"
        = .ok ⟨"converted", "converteddata.txt", "x"⟩
    ∧ "converteddata.txt" ≠ "converted/data.txt"
    ∧ writeFile defaultFlags (sampleEnv []) "x" "in/data.txt"
        = .ok ⟨"converted/", "converted/data.txt", "x"⟩ :=
  ⟨by rfl, by decide, by rfl⟩

/-- The written name without the directory flag: when the output-directory
flag ends in a separator, the base name of the written path is the base name
of the input path with `.csv` replaced by the new extension. -/
theorem written_name_of_separator (fl : Flags) (path : String) (hext : Ext path = ".csv")
    (d : String) (hd : fl.outdirFlag = d ++ "/") :
    Base (fl.outdirFlag ++ (TrimSuffix (Base path) ".csv"
        ++ if fl.replayFlag then ".srpl" else ".txt"))
      = TrimSuffix (Base path) ".csv" ++ if fl.replayFlag then ".srpl" else ".txt" := by
  have hname := outfile_name fl path hext
  have hne : (TrimSuffix (Base path) ".csv"
      ++ if fl.replayFlag then ".srpl" else ".txt").data ≠ [] := by
    cases fl.replayFlag <;> simp
  have h1 := Base_of_decomp ('/' :: d.data.reverse) _ hname.2 hne (Or.inr ⟨_, rfl⟩)
  have e1 : fl.outdirFlag ++ (TrimSuffix (Base path) ".csv"
      ++ if fl.replayFlag then ".srpl" else ".txt")
      = String.mk (('/' :: d.data.reverse).reverse ++ (TrimSuffix (Base path) ".csv"
      ++ if fl.replayFlag then ".srpl" else ".txt").data) := by
    rw [hd]
    apply String.ext
    simp
  rw [e1, h1]

/-- C8, the code at the failing input: with `-output converted` the input
`dir/sub/data.csv`, whose base name with `.csv` replaced by `.txt` is
`data.txt`, is written to a file whose name is `converteddata.txt`; with the
default `converted/` the name is `data.txt`, also for `other/data.csv`. -/
theorem convertFile_name_without_separator :
    Ext "dir/sub/data.csv" = ".csv"
    ∧ TrimSuffix (Base "dir/sub/data.csv") ".csv" ++ ".txt" = "data.txt"
    ∧ convertFile { tempFlags with outdirFlag := "converted" } sampleStrconv
          (sampleEnv [["a", "1.5"]]) "dir/sub/data.csv"
        = .converted ⟨"converted", "converteddata.txt", "temp key=\"a\",value=1.5\n"⟩ []
    ∧ Base "converteddata.txt" = "converteddata.txt"
    ∧ convertFile tempFlags sampleStrconv (sampleEnv [["a", "1.5"]]) "dir/sub/data.csv"
        = .converted ⟨"converted/", "converted/data.txt", "temp key=\"a\",value=1.5\n"⟩ []
    ∧ convertFile tempFlags sampleStrconv (sampleEnv [["a", "1.5"]]) "other/data.csv"
        = .converted ⟨"converted/", "converted/data.txt", "temp key=\"a\",value=1.5\n"⟩ []
    ∧ Base "converted/data.txt" = "data.txt" :=
  ⟨by decide, by decide, by decide, by decide, by decide, by decide, by decide⟩

end Lineprotocol
